import Mathlib

/-!
Verification of the img-resizer service (src/go/main.go).

The Go program is shallowly embedded below.  Machine integers are modelled
as `Int`/`Nat` (all quantities involved stay far below the `int64` range
except where the `strconv.Atoi` range behaviour matters, which is modelled
explicitly).  The Go `float64` expressions in the dimension planner
(`math.Round(float64(a) * (float64(b) / float64(c)))`) are modelled exactly
over `ℚ`; for the integer magnitudes reachable here (image dimensions fit in
32 bits) the float64 computation is exact to well under the 1/2 rounding
slack, so the rational model agrees with the float one.

The JPEG/PNG encoders (`jpeg.Encode`, `png.Encode`) and the CatmullRom
resampler are external libraries; for a fixed source image the bytes produced
at a given working geometry and encode parameter are a function of that
geometry and parameter, so they are abstracted as an oracle
`enc : Nat → Nat → α → List Nat` (width → height → parameter → encoded
bytes).  All theorems quantify over every such oracle, hence cover every
actual source image.  In-memory `bytes.Buffer` writes cannot fail, so the
oracle is total.
-/

/-- `maxBytes = 10 * 1024 * 1024`, the byte budget (main.go line 28). -/
def maxBytes : Nat := 10 * 1024 * 1024

/-- One downscale step: Go computes `int(float64(n) * 0.9)`, which for every
dimension below 2^50 equals `⌊9n/10⌋` (truncation of a nonnegative float;
the float error is far below the distance to the next integer). -/
def shrink (n : Nat) : Nat := 9 * n / 10

/-- The inner ladder pass of `encodeJPEGConstrained` / `encodePNGConstrained`
(main.go lines 237-245 and 260-269): try each parameter in order, return the
first encoding whose length is within the budget. -/
def findInLadder {α : Type} (enc : α → List Nat) : List α → Option (List Nat)
  | [] => none
  | q :: rest =>
    let b := enc q
    if b.length ≤ maxBytes then some b else findInLadder enc rest

/-- The retry loop of the constrained encoders (main.go lines 236-254 and
259-278), instrumented to also return the geometry at which the successful
encode happened.  The loop is written with an explicit fuel parameter so that
it is structurally recursive; `encodeFuel_congr` below proves the result is
independent of the fuel once the fuel exceeds the width, i.e. the Go loop
terminates within `w` iterations and this definition computes its value. -/
def encodeFuel {α : Type} (enc : Nat → Nat → α → List Nat) (ladder : List α) :
    Nat → Nat → Nat → Option (List Nat × Nat × Nat)
  | 0, _, _ => none
  | fuel + 1, w, h =>
    match findInLadder (enc w h) ladder with
    | some b => some (b, w, h)
    | none =>
      if shrink w < 32 ∨ shrink h < 32 then none
      else encodeFuel enc ladder fuel (shrink w) (shrink h)

/-- The constrained-encode loop at its sufficient fuel `w + 1`. -/
def encodeConstrainedAux {α : Type} (enc : Nat → Nat → α → List Nat)
    (ladder : List α) (w h : Nat) : Option (List Nat × Nat × Nat) :=
  encodeFuel enc ladder (w + 1) w h

/-- The bytes returned by the constrained-encode loop (what the Go functions
actually return; the geometry is internal). -/
def encodeConstrained {α : Type} (enc : Nat → Nat → α → List Nat)
    (ladder : List α) (w h : Nat) : Option (List Nat) :=
  (encodeConstrainedAux enc ladder w h).map (fun r => r.1)

/-- The fixed JPEG quality ladder (main.go line 235). -/
def jpegQualities : List Nat := [95, 90, 85, 80, 75, 70, 65, 60]

/-- The fixed PNG compression-level ladder (main.go line 258):
`png.DefaultCompression = 0`, then `png.BestCompression = -3`. -/
def pngLevels : List Int := [0, -3]

/-- `encodeJPEGConstrained` (main.go lines 234-255). -/
def encodeJPEGConstrained (enc : Nat → Nat → Nat → List Nat) (w h : Nat) :
    Option (List Nat × String) :=
  (encodeConstrained enc jpegQualities w h).map (fun b => (b, "image/jpeg"))

/-- `encodePNGConstrained` (main.go lines 257-279). -/
def encodePNGConstrained (enc : Nat → Nat → Int → List Nat) (w h : Nat) :
    Option (List Nat × String) :=
  (encodeConstrained enc pngLevels w h).map (fun b => (b, "image/png"))

/-- ASCII lower-casing of one character, as `strings.ToLower` acts on the
ASCII format names (`"jpeg"`, `"png"`, ...) that can occur here. -/
def lowerChar (c : Char) : Char :=
  if 'A' ≤ c ∧ c ≤ 'Z' then Char.ofNat (c.toNat + 32) else c

/-- `strings.ToLower` on ASCII strings. -/
def lowerStr (s : String) : String := String.mk (s.data.map lowerChar)

/-- `encodeWithConstraints` (main.go lines 223-232): dispatch on the
lower-cased format name; unknown formats are an error (`none`). -/
def encodeWithConstraints (encJ : Nat → Nat → Nat → List Nat)
    (encP : Nat → Nat → Int → List Nat) (format : String) (w h : Nat) :
    Option (List Nat × String) :=
  if lowerStr format = "jpeg" ∨ lowerStr format = "jpg" then
    encodeJPEGConstrained encJ w h
  else if lowerStr format = "png" then
    encodePNGConstrained encP w h
  else none

/-- Decimal digit value of a character, `none` for non-digits. -/
def digitVal (c : Char) : Option Nat :=
  if '0' ≤ c ∧ c ≤ '9' then some (c.toNat - 48) else none

/-- Accumulate decimal digits; `none` on the first non-digit. -/
def parseDigitsAux (acc : Nat) : List Char → Option Nat
  | [] => some acc
  | c :: cs =>
    match digitVal c with
    | some d => parseDigitsAux (acc * 10 + d) cs
    | none => none

/-- Parse a nonempty all-digit string to its value. -/
def parseDigits : List Char → Option Nat
  | [] => none
  | cs => parseDigitsAux 0 cs

/-- Largest `int64` value. -/
def i64Max : Int := 9223372036854775807

/-- Smallest `int64` value. -/
def i64Min : Int := -9223372036854775808

/-- `strconv.Atoi` on a 64-bit platform: `(value, hadError)`.  Syntax errors
(empty string, stray characters, bare sign) yield `(0, true)`.  A
syntactically valid number outside the `int64` range yields the clamped
extreme value together with an error (`strconv.ErrRange`) — Go returns the
clamped value alongside the error, and `handler` ignores the error for the
height parameter. -/
def goAtoi (s : String) : Int × Bool :=
  match s.data with
  | [] => (0, true)
  | c :: cs =>
    let signed : Bool × List Char :=
      if c = '-' then (true, cs)
      else if c = '+' then (false, cs)
      else (false, c :: cs)
    match parseDigits signed.2 with
    | none => (0, true)
    | some n =>
      if signed.1 then
        if (n : Int) > 9223372036854775808 then (i64Min, true)
        else (-(n : Int), false)
      else
        if (n : Int) > i64Max then (i64Max, true) else ((n : Int), false)

/-- The allowed-width set (main.go line 34), as a membership test the way the
Go map lookup behaves (absent key ⇒ `false`). -/
def allowedWidths (w : Int) : Bool :=
  w == 240 || w == 300 || w == 460 || w == 700 || w == 1040

/-- Height resolution (main.go lines 80-83): parse `h` ignoring the error;
a zero value (absent parameter, literal "0", or syntax error) is replaced by
the width. -/
def heightFromParam (width : Int) (s : String) : Int :=
  let h0 := (goAtoi s).1
  if h0 = 0 then width else h0

/-- Go `math.Round` (half away from zero) on an exact rational. -/
def goRound (x : ℚ) : Int :=
  if 0 ≤ x then ⌊x + 1 / 2⌋ else -⌊-x + 1 / 2⌋

/-- Width clamp of the dimension planner (main.go lines 109-122): if the
requested width exceeds the source width, clamp it and rescale the height by
the clamp ratio `srcW / width` (or fall back to `srcH` when `height ≤ 0`). -/
def clampW (srcW srcH width height : Int) : Int × Int :=
  if width > srcW then
    (srcW,
      if height > 0 then goRound ((height : ℚ) * ((srcW : ℚ) / (width : ℚ)))
      else srcH)
  else (width, height)

/-- Height clamp of the dimension planner (main.go lines 125-130): if the
working height exceeds the source height, clamp it and rescale the working
width by `srcH / height` (`height` is the originally requested height). -/
def clampH (srcH height : Int) (t1 : Int × Int) : Int × Int :=
  if t1.2 > srcH then
    (goRound ((t1.1 : ℚ) * ((srcH : ℚ) / (height : ℚ))), srcH)
  else t1

/-- The dimension planner, main.go lines 107-134: width clamp, then height
clamp, then the validity check of lines 132-134 (`none` models the
"calculated size invalid" rejection). -/
def plan (srcW srcH width height : Int) : Option (Int × Int) :=
  if (clampH srcH height (clampW srcW srcH width height)).1 ≤ 0 ∨
      (clampH srcH height (clampW srcW srcH width height)).2 ≤ 0 then none
  else some (clampH srcH height (clampW srcW srcH width height))

/-- `strings.TrimPrefix(path, "/")` as used on main.go line 86. -/
def dropSlash (s : String) : String :=
  match s.data with
  | '/' :: rest => String.mk rest
  | _ => s

/-- Bytes of an ASCII message, for `[]byte(msg)`. -/
def strBytes (s : String) : List Nat := s.data.map Char.toNat

/-- The HTTP request built by `writeGetObjectResponse`. -/
structure HTTPRequest where
  url : String
  method : String
  headers : List (String × String)
  body : List Nat

/-- The Cache-Control value set on main.go line 170. -/
def cacheControlValue : String := "public, max-age=31536000, immutable"

/-- `writeGetObjectResponse` (main.go lines 161-182): the request it builds
and posts.  The headers, notably Cache-Control, are set unconditionally,
whatever the status code. -/
def writeGetObjectResponse (route token : String) (statusCode : Nat)
    (contentType : String) (body : List Nat) : HTTPRequest :=
  { url := route ++ "?write=true"
    method := "POST"
    headers := [("x-amz-request-token", token),
                ("x-amz-status-code", toString statusCode),
                ("Content-Type", contentType),
                ("Cache-Control", cacheControlValue)]
    body := body }

/-- The parsed pieces of the incoming event that `handler` consumes: output
route and token, URL path, and the `w`/`h` query parameters (absent
parameters are the empty string, as with Go `url.Values.Get`). -/
structure Request where
  route : String
  token : String
  path : String
  wParam : String
  hParam : String

/-- Outcome of the S3 fetch collaborator (`fetchOriginalFromS3`). -/
inductive FetchResult where
  | ok (bytes : List Nat)
  | noSuchKey
  | otherErr (msg : String)

/-- Outcome of `image.Decode`: source dimensions and format name, or an
error. -/
inductive DecodeResult where
  | ok (w h : Int) (format : String)
  | err (msg : String)

/-- What one `handler` invocation observably does: the
WriteGetObjectResponse request it issued, the status code it passed, whether
the S3 fetch was performed before responding, and whether the handler
returned an error. -/
structure HandlerOut where
  written : HTTPRequest
  status : Nat
  fetched : Bool
  isErr : Bool

/-- `writeError` (main.go lines 154-158): respond with the code and a
text/plain message, and return an error. -/
def mkErrOut (route token : String) (code : Nat) (msg : String)
    (fetched : Bool) : HandlerOut :=
  { written := writeGetObjectResponse route token code "text/plain" (strBytes msg)
    status := code
    fetched := fetched
    isErr := true }

/-- `handler` (main.go lines 53-152), over oracles for the fetch, decode and
encode collaborators.  URL parsing is assumed to have succeeded and yielded
the path and query parameters in `req`. -/
def handler (fetch : String → FetchResult) (decode : List Nat → DecodeResult)
    (encJ : Nat → Nat → Nat → List Nat) (encP : Nat → Nat → Int → List Nat)
    (req : Request) : HandlerOut :=
  let wr := goAtoi req.wParam
  if wr.2 || !allowedWidths wr.1 then
    mkErrOut req.route req.token 400 "width must be one of 240,300,460,700,1040" false
  else
    let width := wr.1
    let height := heightFromParam width req.hParam
    let srcKey := dropSlash req.path
    if srcKey = "" then
      mkErrOut req.route req.token 400 "empty path" false
    else
      match fetch srcKey with
      | .noSuchKey => mkErrOut req.route req.token 404 "base image not found" true
      | .otherErr m =>
        mkErrOut req.route req.token 502 ("failed to fetch original: " ++ m) true
      | .ok bs =>
        match decode bs with
        | .err m =>
          mkErrOut req.route req.token 415 ("decode error (jpeg/png only): " ++ m) true
        | .ok srcW srcH fmt =>
          let format := lowerStr fmt
          match plan srcW srcH width height with
          | none => mkErrOut req.route req.token 400 "calculated size invalid" true
          | some (tw, th) =>
            match encodeWithConstraints encJ encP format tw.toNat th.toNat with
            | none => mkErrOut req.route req.token 500 "encode error" true
            | some (b, ct) =>
              { written := writeGetObjectResponse req.route req.token 200 ct b
                status := 200
                fetched := true
                isErr := false }

/-- An always-over-budget encoding, used to exhibit concrete runs of the
retry loop. -/
def bigBytes : List Nat := List.replicate (maxBytes + 1) 0

/-! ## Helper lemmas -/

lemma shrink_le_self (n : Nat) : shrink n ≤ n := by
  unfold shrink
  omega

lemma shrink_lt_self {n : Nat} (h : 0 < n) : shrink n < n := by
  unfold shrink
  omega

lemma findInLadder_some_le {α : Type} {enc : α → List Nat} {ladder : List α}
    {b : List Nat} (h : findInLadder enc ladder = some b) :
    b.length ≤ maxBytes := by
  induction ladder with
  | nil => simp [findInLadder] at h
  | cons q rest ih =>
    simp only [findInLadder] at h
    split at h
    · cases h
      assumption
    · exact ih h

lemma findInLadder_spec_some {α : Type} {enc : α → List Nat} {ladder : List α}
    {b : List Nat} (h : findInLadder enc ladder = some b) :
    ∃ pre q post, ladder = pre ++ q :: post ∧ enc q = b ∧
      b.length ≤ maxBytes ∧ ∀ p ∈ pre, maxBytes < (enc p).length := by
  induction ladder with
  | nil => simp [findInLadder] at h
  | cons q rest ih =>
    simp only [findInLadder] at h
    split at h
    · cases h
      exact ⟨[], q, rest, rfl, rfl, by assumption, by simp⟩
    · obtain ⟨pre, q0, post, hl, he, hle, hpre⟩ := ih h
      refine ⟨q :: pre, q0, post, by rw [hl]; rfl, he, hle, ?_⟩
      intro p hp
      rcases List.mem_cons.mp hp with rfl | hp
      · omega
      · exact hpre p hp

lemma findInLadder_none {α : Type} {enc : α → List Nat} {ladder : List α}
    (h : findInLadder enc ladder = none) :
    ∀ q ∈ ladder, maxBytes < (enc q).length := by
  induction ladder with
  | nil => simp
  | cons q rest ih =>
    simp only [findInLadder] at h
    split at h
    · cases h
    · intro p hp
      rcases List.mem_cons.mp hp with rfl | hp
      · omega
      · exact ih h p hp

lemma encodeFuel_some_bounds {α : Type} {enc : Nat → Nat → α → List Nat}
    {ladder : List α} :
    ∀ {f w h : Nat} {b : List Nat} {w0 h0 : Nat},
      encodeFuel enc ladder f w h = some (b, w0, h0) →
      b.length ≤ maxBytes ∧ w0 ≤ w ∧ h0 ≤ h := by
  intro f
  induction f with
  | zero =>
    intro w h b w0 h0 hf
    simp [encodeFuel] at hf
  | succ f ih =>
    intro w h b w0 h0 hf
    rw [encodeFuel] at hf
    split at hf
    · rename_i bb hlad
      cases hf
      exact ⟨findInLadder_some_le hlad, le_refl _, le_refl _⟩
    · split at hf
      · cases hf
      · obtain ⟨h1, h2, h3⟩ := ih hf
        exact ⟨h1, le_trans h2 (shrink_le_self w), le_trans h3 (shrink_le_self h)⟩

lemma encodeFuel_succ_some {α : Type} {enc : Nat → Nat → α → List Nat}
    {ladder : List α} {f w h : Nat} {b : List Nat}
    (hlad : findInLadder (enc w h) ladder = some b) :
    encodeFuel enc ladder (f + 1) w h = some (b, w, h) := by
  rw [encodeFuel, hlad]

lemma encodeFuel_succ_none {α : Type} {enc : Nat → Nat → α → List Nat}
    {ladder : List α} {f w h : Nat}
    (hlad : findInLadder (enc w h) ladder = none) :
    encodeFuel enc ladder (f + 1) w h =
      if shrink w < 32 ∨ shrink h < 32 then none
      else encodeFuel enc ladder f (shrink w) (shrink h) := by
  rw [encodeFuel, hlad]

lemma encodeFuel_congr {α : Type} {enc : Nat → Nat → α → List Nat}
    {ladder : List α} :
    ∀ {w f1 f2 h : Nat}, w < f1 → w < f2 →
      encodeFuel enc ladder f1 w h = encodeFuel enc ladder f2 w h := by
  intro w
  induction w using Nat.strong_induction_on with
  | _ w ih =>
    intro f1 f2 h h1 h2
    obtain ⟨g1, rfl⟩ : ∃ g, f1 = g + 1 := ⟨f1 - 1, by omega⟩
    obtain ⟨g2, rfl⟩ : ∃ g, f2 = g + 1 := ⟨f2 - 1, by omega⟩
    cases hlad : findInLadder (enc w h) ladder with
    | some b => rw [encodeFuel_succ_some hlad, encodeFuel_succ_some hlad]
    | none =>
      rw [encodeFuel_succ_none hlad, encodeFuel_succ_none hlad]
      by_cases hfloor : shrink w < 32 ∨ shrink h < 32
      · rw [if_pos hfloor, if_pos hfloor]
      · rw [if_neg hfloor, if_neg hfloor]
        push_neg at hfloor
        have h32 : 32 ≤ shrink w := hfloor.1
        have hle := shrink_le_self w
        have hw : 0 < w := by omega
        have hlt := shrink_lt_self hw
        exact ih (shrink w) hlt (by omega) (by omega)

lemma goRound_le_intCast {x : ℚ} {n : Int} (h : x ≤ (n : ℚ)) : goRound x ≤ n := by
  unfold goRound
  split
  · have h1 : ⌊x + 1 / 2⌋ ≤ ⌊(n : ℚ) + 1 / 2⌋ := Int.floor_le_floor (by linarith)
    have h2 : ⌊(n : ℚ) + 1 / 2⌋ = n := by
      rw [Int.floor_eq_iff]
      constructor
      · linarith
      · linarith
    omega
  · rename_i hx
    push_neg at hx
    have h1 : ⌊(-n : ℚ) + 1 / 2⌋ ≤ ⌊-x + 1 / 2⌋ := by
      apply Int.floor_le_floor
      linarith
    have h2 : ⌊(-n : ℚ) + 1 / 2⌋ = -n := by
      rw [Int.floor_eq_iff]
      constructor
      · push_cast
        linarith
      · push_cast
        linarith
    omega

lemma clampH_le {srcW srcH height : Int} {t1 : Int × Int}
    (hW : 0 ≤ srcW) (hH : 0 ≤ srcH) (h1 : t1.1 ≤ srcW)
    (h2 : t1.2 ≤ srcH ∨ (0 < height ∧ t1.2 ≤ height)) :
    (clampH srcH height t1).1 ≤ srcW ∧ (clampH srcH height t1).2 ≤ srcH := by
  unfold clampH
  split_ifs with hc
  · constructor
    · rcases h2 with h2 | ⟨hhp, hle⟩
      · exact absurd hc (by omega)
      · have hsh : srcH < height := by omega
        have hhq : (0 : ℚ) < (height : ℚ) := by exact_mod_cast hhp
        have hq1 : (srcH : ℚ) / (height : ℚ) ≤ 1 := by
          apply div_le_one_of_le₀
          · exact_mod_cast le_of_lt hsh
          · linarith
        have hq0 : (0 : ℚ) ≤ (srcH : ℚ) / (height : ℚ) := by
          apply div_nonneg
          · exact_mod_cast hH
          · linarith
        apply goRound_le_intCast
        rcases le_or_lt 0 t1.1 with ht | ht
        · have htq : (0 : ℚ) ≤ (t1.1 : ℚ) := by exact_mod_cast ht
          have hts : (t1.1 : ℚ) ≤ (srcW : ℚ) := by exact_mod_cast h1
          nlinarith
        · have htq : (t1.1 : ℚ) < 0 := by exact_mod_cast ht
          have hsw : (0 : ℚ) ≤ (srcW : ℚ) := by exact_mod_cast hW
          nlinarith
    · exact le_refl srcH
  · exact ⟨h1, by omega⟩

lemma plan_pair_le {srcW srcH width height : Int}
    (hW : 0 ≤ srcW) (hH : 0 ≤ srcH) :
    (clampH srcH height (clampW srcW srcH width height)).1 ≤ srcW ∧
      (clampH srcH height (clampW srcW srcH width height)).2 ≤ srcH := by
  apply clampH_le hW hH
  · unfold clampW
    split_ifs with hc hh
    · exact le_refl srcW
    · exact le_refl srcW
    · show width ≤ srcW
      omega
  · unfold clampW
    split_ifs with hc hh
    · -- width clamped, height > 0: rescaled height is at most height
      right
      refine ⟨hh, ?_⟩
      show goRound ((height : ℚ) * ((srcW : ℚ) / (width : ℚ))) ≤ height
      have hwpos : (0 : ℚ) < (width : ℚ) := by
        have : (0 : Int) < width := by omega
        exact_mod_cast this
      have hq1 : (srcW : ℚ) / (width : ℚ) ≤ 1 := by
        apply div_le_one_of_le₀
        · exact_mod_cast le_of_lt hc
        · linarith
      have hq0 : (0 : ℚ) ≤ (srcW : ℚ) / (width : ℚ) := by
        apply div_nonneg
        · exact_mod_cast hW
        · linarith
      apply goRound_le_intCast
      have hh' : (0 : ℚ) ≤ (height : ℚ) := by
        have : (0 : Int) ≤ height := le_of_lt hh
        exact_mod_cast this
      nlinarith
    · -- width clamped, height ≤ 0: working height is srcH
      left
      show srcH ≤ srcH
      omega
    · -- width not clamped: working height is the requested height
      rcases le_or_lt height 0 with hh0 | hh0
      · left
        show height ≤ srcH
        omega
      · right
        exact ⟨hh0, le_refl _⟩

lemma plan_some_le {srcW srcH width height tw th : Int}
    (hW : 0 ≤ srcW) (hH : 0 ≤ srcH)
    (h : plan srcW srcH width height = some (tw, th)) :
    tw ≤ srcW ∧ th ≤ srcH := by
  unfold plan at h
  split at h
  · cases h
  · injection h with h2
    have hfst := congrArg Prod.fst h2
    have hsnd := congrArg Prod.snd h2
    simp only at hfst hsnd
    subst hfst
    subst hsnd
    exact plan_pair_le hW hH

lemma encodeConstrained_some_le {α : Type} {enc : Nat → Nat → α → List Nat}
    {ladder : List α} {w h : Nat} {b : List Nat}
    (h : encodeConstrained enc ladder w h = some b) : b.length ≤ maxBytes := by
  unfold encodeConstrained at h
  rw [Option.map_eq_some'] at h
  obtain ⟨⟨b0, w0, h0⟩, ha, hb⟩ := h
  cases hb
  unfold encodeConstrainedAux at ha
  exact (encodeFuel_some_bounds ha).1

lemma encodeJPEG_some {enc : Nat → Nat → Nat → List Nat} {w h : Nat}
    {b : List Nat} {ct : String}
    (hj : encodeJPEGConstrained enc w h = some (b, ct)) :
    encodeConstrained enc jpegQualities w h = some b ∧ ct = "image/jpeg" := by
  unfold encodeJPEGConstrained at hj
  rw [Option.map_eq_some'] at hj
  obtain ⟨b0, ha, hb⟩ := hj
  injection hb with h1 h2
  subst h1
  subst h2
  exact ⟨ha, rfl⟩

lemma encodePNG_some {enc : Nat → Nat → Int → List Nat} {w h : Nat}
    {b : List Nat} {ct : String}
    (hp : encodePNGConstrained enc w h = some (b, ct)) :
    encodeConstrained enc pngLevels w h = some b ∧ ct = "image/png" := by
  unfold encodePNGConstrained at hp
  rw [Option.map_eq_some'] at hp
  obtain ⟨b0, ha, hb⟩ := hp
  injection hb with h1 h2
  subst h1
  subst h2
  exact ⟨ha, rfl⟩

/-! ## Claim theorems -/

/-- Claim C2 (confirmed): whenever the transcode operation reports success,
the returned artifact's byte length is at most `maxBytes = 10485760`.  The
failure half of the claim holds by construction: failure is `none`, which
carries no artifact. -/
theorem encode_success_within_budget :
    ∀ (encJ : Nat → Nat → Nat → List Nat) (encP : Nat → Nat → Int → List Nat)
      (format : String) (w h : Nat) (b : List Nat) (ct : String),
      encodeWithConstraints encJ encP format w h = some (b, ct) →
      b.length ≤ maxBytes := by
  intro encJ encP format w h b ct henc
  unfold encodeWithConstraints at henc
  split_ifs at henc with hf1 hf2
  · exact encodeConstrained_some_le (encodeJPEG_some henc).1
  · exact encodeConstrained_some_le (encodePNG_some henc).1

/-- Witness for C2 at a concrete oracle and geometry. -/
theorem encode_success_within_budget_witness :
    ([] : List Nat).length ≤ maxBytes :=
  encode_success_within_budget (fun _ _ _ => []) (fun _ _ _ => [])
    "jpeg" 100 100 [] "image/jpeg" (by rfl)

/-- Claim C5 (confirmed): each downscale retry strictly shrinks the working
dimensions, and the retry loop stabilizes after at most `w` iterations: any
fuel beyond the initial width computes the same (terminal) result, so the
transcode operation always reaches a definite success or failure. -/
theorem downscale_loop_terminates :
    (∀ n : Nat, 0 < n → shrink n < n) ∧
    ∀ (α : Type) (enc : Nat → Nat → α → List Nat) (ladder : List α)
      (f w h : Nat), w < f →
      encodeFuel enc ladder f w h = encodeConstrainedAux enc ladder w h := by
  constructor
  · intro n hn
    exact shrink_lt_self hn
  · intro α enc ladder f w h hf
    unfold encodeConstrainedAux
    exact encodeFuel_congr hf (Nat.lt_succ_self w)

/-- Witness for C5 at concrete fuel and geometry. -/
theorem downscale_loop_terminates_witness :
    shrink 5 < 5 ∧
      encodeFuel (fun _ _ (_ : Nat) => ([] : List Nat)) jpegQualities 10 3 3 =
        encodeConstrainedAux (fun _ _ (_ : Nat) => ([] : List Nat)) jpegQualities 3 3 :=
  ⟨downscale_loop_terminates.1 5 (by decide),
   downscale_loop_terminates.2 Nat (fun _ _ _ => []) jpegQualities 10 3 3 (by decide)⟩

/-- Claim C4 (confirmed): when the ladder pass finds nothing within budget,
both working dimensions are multiplied by 0.9 rounding down (`shrink`), the
operation fails (`none`, the `BudgetUnsatisfiable` outcome) exactly when
either shrunk dimension falls below 32, and otherwise the loop retries
resample-then-encode at the shrunk geometry. -/
theorem ladder_exhausted_shrink_step :
    ∀ (α : Type) (enc : Nat → Nat → α → List Nat) (ladder : List α) (w h : Nat),
      findInLadder (enc w h) ladder = none →
      encodeConstrainedAux enc ladder w h =
        if shrink w < 32 ∨ shrink h < 32 then none
        else encodeConstrainedAux enc ladder (shrink w) (shrink h) := by
  intro α enc ladder w h hlad
  unfold encodeConstrainedAux
  rw [encodeFuel_succ_none hlad]
  by_cases hfloor : shrink w < 32 ∨ shrink h < 32
  · rw [if_pos hfloor, if_pos hfloor]
  · rw [if_neg hfloor, if_neg hfloor]
    push_neg at hfloor
    have h32 : 32 ≤ shrink w := hfloor.1
    have hle := shrink_le_self w
    have hw : 0 < w := by omega
    have hlt := shrink_lt_self hw
    exact encodeFuel_congr (by omega) (Nat.lt_succ_self _)

/-- Witness for C4: with an always-over-budget oracle at 34x34 the shrunk
height 30 is below the floor, so the loop fails. -/
theorem ladder_exhausted_shrink_step_witness :
    encodeConstrainedAux (fun _ _ (_ : Nat) => bigBytes) jpegQualities 34 34 = none := by
  have hlen : bigBytes.length = maxBytes + 1 := by
    rw [bigBytes]
    exact List.length_replicate _ _
  have hgt : ¬ bigBytes.length ≤ maxBytes := by
    rw [hlen]
    omega
  have hlad : findInLadder ((fun _ _ (_ : Nat) => bigBytes) 34 34) jpegQualities = none := by
    simp [findInLadder, hgt]
  have h := ladder_exhausted_shrink_step Nat (fun _ _ _ => bigBytes) jpegQualities 34 34 hlad
  rw [h]
  norm_num [shrink]

/-- Claim C7 (confirmed): the JPEG ladder is the fixed descending constant
[95, 90, 85, 80, 75, 70, 65, 60] and the PNG ladder the fixed constant
[default (0), best (-3)]; a ladder pass returns the encoding of the first
parameter within budget, every earlier parameter having produced an
over-budget encoding, and reports failure only when every parameter is
over budget. -/
theorem ladder_first_fit :
    jpegQualities = [95, 90, 85, 80, 75, 70, 65, 60] ∧
    jpegQualities.Pairwise (fun a b => b < a) ∧
    pngLevels = [0, -3] ∧
    (∀ (α : Type) (enc : α → List Nat) (ladder : List α) (b : List Nat),
      findInLadder enc ladder = some b →
      ∃ (pre : List α) (q : α) (post : List α),
        ladder = pre ++ q :: post ∧ enc q = b ∧
        b.length ≤ maxBytes ∧ ∀ p ∈ pre, maxBytes < (enc p).length) ∧
    (∀ (α : Type) (enc : α → List Nat) (ladder : List α),
      findInLadder enc ladder = none → ∀ q ∈ ladder, maxBytes < (enc q).length) := by
  refine ⟨rfl, by decide, rfl, ?_, ?_⟩
  · intro α enc ladder b h
    exact findInLadder_spec_some h
  · intro α enc ladder h
    exact findInLadder_none h

/-- Witness for C7: at the singleton-byte oracle the first JPEG quality
already fits the budget. -/
theorem ladder_first_fit_witness :
    ∃ (pre : List Nat) (q : Nat) (post : List Nat),
      jpegQualities = pre ++ q :: post ∧
      (fun (n : Nat) => [n]) q = [95] ∧ ([95] : List Nat).length ≤ maxBytes ∧
      ∀ p ∈ pre, maxBytes < ((fun (n : Nat) => [n]) p).length :=
  ladder_first_fit.2.2.2.1 Nat (fun n => [n]) jpegQualities [95] (by rfl)

/-- Claim C3 (confirmed): the planner never returns a dimension exceeding the
corresponding source dimension, and the retry loop only ever shrinks the
working geometry, so the successful encode's geometry is bounded by its
starting geometry. -/
theorem no_upscale :
    (∀ srcW srcH width height tw th : Int, 0 ≤ srcW → 0 ≤ srcH →
      plan srcW srcH width height = some (tw, th) → tw ≤ srcW ∧ th ≤ srcH) ∧
    ∀ (α : Type) (enc : Nat → Nat → α → List Nat) (ladder : List α)
      (w h : Nat) (b : List Nat) (w0 h0 : Nat),
      encodeConstrainedAux enc ladder w h = some (b, w0, h0) →
      w0 ≤ w ∧ h0 ≤ h := by
  constructor
  · intro srcW srcH width height tw th hW hH h
    exact plan_some_le hW hH h
  · intro α enc ladder w h b w0 h0 henc
    unfold encodeConstrainedAux at henc
    exact (encodeFuel_some_bounds henc).2

/-- Witness for C3 at a concrete plan and a concrete loop run. -/
theorem no_upscale_witness :
    ((240 : Int) ≤ 4000 ∧ (240 : Int) ≤ 3000) ∧ ((7 : Nat) ≤ 7 ∧ (7 : Nat) ≤ 7) :=
  ⟨no_upscale.1 4000 3000 240 240 240 240 (by decide) (by decide) (by decide),
   no_upscale.2 Nat (fun _ _ _ => []) jpegQualities 7 7 [] 7 7 (by rfl)⟩

/-- Claim C1 counterexample: with no height parameter the handler sets the
height to the requested width, and for a 4000x3000 source at requested width
1040 the planner returns 1040x1040 — not the aspect-preserving 1040x780 that
`round(srcH * targetW / srcW)` would give — so the output is square, not
aspect-preserving. -/
theorem plan_no_height_not_aspect_cex :
    heightFromParam 1040 "" = 1040 ∧
    plan 4000 3000 1040 (heightFromParam 1040 "") = some (1040, 1040) ∧
    goRound ((3000 : ℚ) * ((1040 : ℚ) / (4000 : ℚ))) = 780 ∧
    (1040 : Int) ≠ 780 := by
  refine ⟨by decide, by decide, ?_, by decide⟩
  norm_num [goRound]

/-- Claim C1 (corrected): when no requested height is supplied the handler
substitutes the requested width for the height, giving a square target; in
particular whenever the requested width fits inside both source dimensions
the planner returns exactly (width, width), with no aspect-ratio
computation. -/
theorem plan_no_height_square :
    ∀ srcW srcH width : Int, 0 < width → width ≤ srcW → width ≤ srcH →
      heightFromParam width "" = width ∧
      plan srcW srcH width (heightFromParam width "") = some (width, width) := by
  intro srcW srcH width hpos hw hh
  have hhp : heightFromParam width "" = width := by
    simp [heightFromParam, goAtoi]
  refine ⟨hhp, ?_⟩
  rw [hhp]
  have hc1 : ¬ width > srcW := by omega
  have hc2 : ¬ width > srcH := by omega
  have hc3 : ¬ width ≤ 0 := by omega
  simp [plan, clampW, clampH, hc1, hc2, hc3]

/-- Witness for the amended C1 at the 4000x3000 source of the claim. -/
theorem plan_no_height_square_witness :
    heightFromParam 1040 "" = 1040 ∧
    plan 4000 3000 1040 (heightFromParam 1040 "") = some (1040, 1040) :=
  plan_no_height_square 4000 3000 1040 (by decide) (by decide) (by decide)

/-- Claim C6 (confirmed): a successful transcode's content type is determined
by the decoded source format — a jpeg/jpg source yields "image/jpeg" and a
png source yields "image/png"; no other format succeeds, so the container
format is never changed. -/
theorem format_preserved :
    ∀ (encJ : Nat → Nat → Nat → List Nat) (encP : Nat → Nat → Int → List Nat)
      (format : String) (w h : Nat) (b : List Nat) (ct : String),
      encodeWithConstraints encJ encP format w h = some (b, ct) →
      ((lowerStr format = "jpeg" ∨ lowerStr format = "jpg") ∧ ct = "image/jpeg") ∨
        (lowerStr format = "png" ∧ ct = "image/png") := by
  intro encJ encP format w h b ct henc
  unfold encodeWithConstraints at henc
  split_ifs at henc with hf1 hf2
  · exact Or.inl ⟨hf1, (encodeJPEG_some henc).2⟩
  · exact Or.inr ⟨hf2, (encodePNG_some henc).2⟩

/-- Witness for C6 with a png source. -/
theorem format_preserved_witness :
    ((lowerStr "png" = "jpeg" ∨ lowerStr "png" = "jpg") ∧ "image/png" = "image/jpeg") ∨
      (lowerStr "png" = "png" ∧ "image/png" = "image/png") :=
  format_preserved (fun _ _ _ => []) (fun _ _ _ => []) "png" 50 50 [] "image/png" (by rfl)

/-- Claim C8 (confirmed): when the width parameter fails to parse or is not
in the allowed set, the handler responds 400 without fetching, and its
behaviour is independent of the fetch and decode collaborators — no storage
read can influence (or be triggered by) the rejected request. -/
theorem invalid_width_no_fetch :
    ∀ (fetch : String → FetchResult) (decode : List Nat → DecodeResult)
      (encJ : Nat → Nat → Nat → List Nat) (encP : Nat → Nat → Int → List Nat)
      (req : Request),
      ((goAtoi req.wParam).2 = true ∨ allowedWidths (goAtoi req.wParam).1 = false) →
      (handler fetch decode encJ encP req).status = 400 ∧
      (handler fetch decode encJ encP req).fetched = false ∧
      ∀ (fetch2 : String → FetchResult) (decode2 : List Nat → DecodeResult),
        handler fetch2 decode2 encJ encP req = handler fetch decode encJ encP req := by
  intro fetch decode encJ encP req hbad
  have hc : ((goAtoi req.wParam).2 || !allowedWidths (goAtoi req.wParam).1) = true := by
    rcases hbad with hb | hb
    · simp [hb]
    · simp [hb]
  refine ⟨?_, ?_, ?_⟩
  · simp [handler, hc, mkErrOut]
  · simp [handler, hc, mkErrOut]
  · intro fetch2 decode2
    simp [handler, hc]

/-- Witness for C8: width "999" is rejected with 400 and no fetch. -/
theorem invalid_width_no_fetch_witness :
    (handler (fun _ => FetchResult.noSuchKey) (fun _ => DecodeResult.err "e")
      (fun _ _ _ => []) (fun _ _ _ => [])
      { route := "r", token := "t", path := "/k", wParam := "999", hParam := "" }).status = 400 ∧
    (handler (fun _ => FetchResult.noSuchKey) (fun _ => DecodeResult.err "e")
      (fun _ _ _ => []) (fun _ _ _ => [])
      { route := "r", token := "t", path := "/k", wParam := "999", hParam := "" }).fetched = false := by
  have h := invalid_width_no_fetch (fun _ => FetchResult.noSuchKey)
    (fun _ => DecodeResult.err "e") (fun _ _ _ => []) (fun _ _ _ => [])
    { route := "r", token := "t", path := "/k", wParam := "999", hParam := "" }
    (Or.inr (by decide))
  exact ⟨h.1, h.2.1⟩

/-- Claim C9 (confirmed): `writeGetObjectResponse` sets the Cache-Control
header "public, max-age=31536000, immutable" unconditionally, whatever the
status code; consequently every response the handler writes — every error
response included — carries that header. -/
theorem cache_control_always_set :
    (∀ (route token : String) (status : Nat) (ct : String) (body : List Nat),
      ("Cache-Control", cacheControlValue) ∈
        (writeGetObjectResponse route token status ct body).headers) ∧
    ∀ (fetch : String → FetchResult) (decode : List Nat → DecodeResult)
      (encJ : Nat → Nat → Nat → List Nat) (encP : Nat → Nat → Int → List Nat)
      (req : Request),
      ("Cache-Control", cacheControlValue) ∈
        (handler fetch decode encJ encP req).written.headers := by
  constructor
  · intro route token status ct body
    simp [writeGetObjectResponse]
  · intro fetch decode encJ encP req
    simp only [handler]
    repeat' split
    all_goals simp [mkErrOut, writeGetObjectResponse]

/-- Claim C10 counterexample: the height string "9999999999999999999" makes
`strconv.Atoi` fail (range error), yet the handler keeps the clamped value
9223372036854775807 as the height instead of falling back to the requested
width 240. -/
theorem height_fallback_cex :
    (goAtoi "9999999999999999999").2 = true ∧
    heightFromParam 240 "9999999999999999999" = 9223372036854775807 ∧
    (9223372036854775807 : Int) ≠ 240 := by
  decide

/-- Claim C10 (corrected): an absent, "0", or syntactically malformed height
parameter (one on which Atoi yields the value 0) is silently replaced by the
requested width, any other parsed value — including the clamped extreme kept
on a range error — is used as-is, and the height is never validated: with a
valid width the handler always proceeds to the fetch, whatever the height
parameter. -/
theorem height_fallback_square :
    (∀ width : Int, heightFromParam width "" = width) ∧
    (∀ width : Int, heightFromParam width "0" = width) ∧
    (∀ (width : Int) (s : String), (goAtoi s).1 = 0 → heightFromParam width s = width) ∧
    (∀ (width : Int) (s : String), (goAtoi s).1 ≠ 0 →
      heightFromParam width s = (goAtoi s).1) ∧
    ∀ (fetch : String → FetchResult) (decode : List Nat → DecodeResult)
      (encJ : Nat → Nat → Nat → List Nat) (encP : Nat → Nat → Int → List Nat)
      (route token hParam : String),
      (handler fetch decode encJ encP
        { route := route, token := token, path := "/k", wParam := "240",
          hParam := hParam }).fetched = true := by
  refine ⟨?_, ?_, ?_, ?_, ?_⟩
  · intro width
    simp [heightFromParam, goAtoi]
  · intro width
    have h0 : goAtoi "0" = (0, false) := by decide
    simp [heightFromParam, h0]
  · intro width s h0
    simp [heightFromParam, h0]
  · intro width s h0
    simp [heightFromParam, h0]
  · intro fetch decode encJ encP route token hParam
    have hw : goAtoi "240" = (240, false) := by decide
    have hkey : dropSlash "/k" = "k" := by decide
    simp only [handler, hw, hkey]
    norm_num [allowedWidths]
    cases hf : fetch "k" with
    | ok bs =>
      simp only [hf]
      cases hd : decode bs with
      | ok sw sh fmt =>
        simp only
        cases hp : plan sw sh 240 (heightFromParam 240 hParam) with
        | none => simp [hp, mkErrOut]
        | some t =>
          obtain ⟨tw, th⟩ := t
          simp only [hp]
          cases he : encodeWithConstraints encJ encP (lowerStr fmt) tw.toNat th.toNat with
          | none => simp [he, mkErrOut]
          | some r =>
            obtain ⟨b, ct⟩ := r
            simp [he]
      | err m => simp [mkErrOut]
    | noSuchKey => simp [hf, mkErrOut]
    | otherErr m => simp [hf, mkErrOut]

/-- Witness for the amended C10: a non-numeric height falls back to the
width, and the handler still proceeds to the fetch. -/
theorem height_fallback_square_witness :
    heightFromParam 240 "abc" = 240 ∧
    (handler (fun _ => FetchResult.noSuchKey) (fun _ => DecodeResult.err "e")
      (fun _ _ _ => []) (fun _ _ _ => [])
      { route := "r", token := "t", path := "/k", wParam := "240",
        hParam := "abc" }).fetched = true :=
  ⟨height_fallback_square.2.2.1 240 "abc" (by decide),
   height_fallback_square.2.2.2.2 (fun _ => FetchResult.noSuchKey)
     (fun _ => DecodeResult.err "e") (fun _ _ _ => []) (fun _ _ _ => [])
     "r" "t" "abc"⟩
